import Mathlib

deriving instance DecidableEq for Except

/-!
Shallow embedding of the go-spring article service (main.go): the in-memory
article store, its CRUD operations, the snapshot codec used for file
persistence, and the startup load-or-seed logic.  Timestamps and Go `int`
values are modelled as `Int` (Go timestamps are opaque instants; arithmetic
on them in the source is only `time.Now().Add(d)`).
-/

namespace GoSpring

/-- The `Article` struct from main.go: an integer id, three text fields and
two timestamps (`Created`, `Updated`), modelled as integer instants. -/
structure Article where
  ID : Int
  Title : String
  Desc : String
  Content : String
  Created : Int
  Updated : Int

deriving instance DecidableEq, Repr for Article

/-- The shared mutable state of the store: the `articles` slice and the
`nextID` counter (package-level variables in main.go). -/
structure State where
  articles : List Article
  nextID : Int

deriving instance DecidableEq, Repr for State

/-- Core of the `createArticle` handler (main.go): validation of the three
text fields, then stamping of `ID`, `Created`, `Updated` from the server
side, increment of `nextID`, and append at the end of the slice.  `req` is
the decoded request body (an `Article`, possibly carrying caller-supplied
`ID`/`Created`/`Updated` values); `now` is the current time.  On validation
failure the handler returns a 400 error and never touches the state. -/
def createArticle (req : Article) (now : Int) (st : State) :
    Except String (Article × State) :=
  if req.Title = "" ∨ req.Desc = "" ∨ req.Content = "" then
    Except.error "Title, description, and content are required"
  else
    let a : Article := { req with ID := st.nextID, Created := now, Updated := now }
    Except.ok (a, { articles := st.articles ++ [a], nextID := st.nextID + 1 })

/-- The state after a `createArticle` call: unchanged when validation
failed (the handler returns before mutating), otherwise the new state. -/
def createStep (req : Article) (now : Int) (st : State) : State :=
  match createArticle req now st with
  | Except.ok (_, st') => st'
  | Except.error _ => st

/-- Linear scan for the first article with the given id, as in the loop of
the `getArticle` handler. -/
def findArticle (id : Int) : List Article → Option Article
  | [] => none
  | a :: rest => if a.ID = id then some a else findArticle id rest

/-- Core of the `getArticle` handler: linear scan of the slice; `none`
models the 404 "Article not found" response. -/
def getArticle (id : Int) (st : State) : Option Article :=
  findArticle id st.articles

/-- Core of the `getAllArticles` handler: returns the whole slice. -/
def getAllArticles (st : State) : List Article :=
  st.articles

/-- Field update applied in place by the `updateArticle` handler: each text
field is overwritten only when the request value is non-empty, and
`Updated` is always refreshed to `now`. -/
def applyUpdate (upd : Article) (now : Int) (a : Article) : Article :=
  { a with
    Title := if upd.Title ≠ "" then upd.Title else a.Title
    Desc := if upd.Desc ≠ "" then upd.Desc else a.Desc
    Content := if upd.Content ≠ "" then upd.Content else a.Content
    Updated := now }

/-- The loop of the `updateArticle` handler over the slice: update the
first article with a matching id in place, returning the updated article
and the new slice; `none` when no article matches. -/
def updateList (id : Int) (upd : Article) (now : Int) :
    List Article → Option (Article × List Article)
  | [] => none
  | a :: rest =>
    if a.ID = id then
      let a' := applyUpdate upd now a
      some (a', a' :: rest)
    else
      match updateList id upd now rest with
      | some (x, l) => some (x, a :: l)
      | none => none

/-- Core of the `updateArticle` handler (main.go): find the first article
with the given id, overwrite its non-empty request fields, refresh
`Updated`, and return the stored article; `none` models the 404 path. -/
def updateArticle (id : Int) (upd : Article) (now : Int) (st : State) :
    Option (Article × State) :=
  match updateList id upd now st.articles with
  | some (x, l) => some (x, { st with articles := l })
  | none => none

/-- The loop of the `deleteArticle` handler: remove the first article with
a matching id (splicing the slice), reporting whether a removal occurred. -/
def deleteList (id : Int) : List Article → Bool × List Article
  | [] => (false, [])
  | a :: rest =>
    if a.ID = id then (true, rest)
    else ((deleteList id rest).1, a :: (deleteList id rest).2)

/-- Core of the `deleteArticle` handler (main.go): remove the first article
with the given id; the Bool is whether a removal occurred (`false` models
the 404 path, which leaves the state untouched). -/
def deleteArticle (id : Int) (st : State) : Bool × State :=
  let r := deleteList id st.articles
  (r.1, { st with articles := r.2 })

/-- A mutation issued against the store: a create request (decoded body
plus the current time at the call) or a delete request. -/
inductive Op where
  | create (req : Article) (now : Int)
  | delete (id : Int)

/-- One mutation applied to the state. -/
def step : Op → State → State
  | Op.create req now, st => createStep req now st
  | Op.delete id, st => (deleteArticle id st).2

/-- A sequence of mutations applied in order. -/
def runOps : List Op → State → State
  | [], st => st
  | op :: rest, st => runOps rest (step op st)

/-- The ids returned by the successful create calls of a run, in call
order. -/
def createdIds : List Op → State → List Int
  | [], _ => []
  | Op.create req now :: rest, st =>
    match createArticle req now st with
    | Except.ok (a, st') => a.ID :: createdIds rest st'
    | Except.error _ => createdIds rest st
  | Op.delete id :: rest, st => createdIds rest (deleteArticle id st).2

/-- The articles returned by the successful create calls of a run, in call
order. -/
def createdArticles : List Op → State → List Article
  | [], _ => []
  | Op.create req now :: rest, st =>
    match createArticle req now st with
    | Except.ok (a, st') => a :: createdArticles rest st'
    | Except.error _ => createdArticles rest st
  | Op.delete id :: rest, st => createdArticles rest (deleteArticle id st).2

/-- The counter invariant of the collection: the next-ID counter is
strictly greater than the id of every live article. -/
def counterInv (st : State) : Prop :=
  ∀ a ∈ st.articles, a.ID < st.nextID

/-- The unit of persistence, the anonymous Go struct
`struct { Articles []Article; NextID int }` serialized by
`saveArticles`/`loadArticles`. -/
structure Snapshot where
  Articles : List Article
  NextID : Int

deriving instance DecidableEq, Repr for Snapshot

/-- Modelled from the spec: the snapshot codec.  The source delegates the
byte layout to the standard gob encoder, which is outside this repository;
the spec fixes only the interface, a deterministic total `Encode` of the
full article sequence plus the next-ID counter, with `Decode` failing on
streams that do not match the expected structure.  We serialize into a
stream of naturals.  An integer becomes a sign tag and a magnitude. -/
def encInt (i : Int) : List Nat :=
  if i < 0 then [0, (-i).toNat] else [1, i.toNat]

/-- Modelled from the spec: a string becomes its length followed by its
character codes (arbitrary unicode text round-trips). -/
def encString (s : String) : List Nat :=
  s.data.length :: s.data.map Char.toNat

/-- Modelled from the spec: an article is the concatenation of its six
encoded fields. -/
def encArticle (a : Article) : List Nat :=
  encInt a.ID ++ encString a.Title ++ encString a.Desc ++ encString a.Content
    ++ encInt a.Created ++ encInt a.Updated

/-- Modelled from the spec: article records, back to back. -/
def encArticles : List Article → List Nat
  | [] => []
  | a :: rest => encArticle a ++ encArticles rest

/-- Modelled from the spec: a snapshot is the article count, the article
records, then the next-ID counter. -/
def encSnapshot (s : Snapshot) : List Nat :=
  s.Articles.length :: encArticles s.Articles ++ encInt s.NextID

/-- Decoder for `encInt`: reads the sign tag and magnitude, failing on a
truncated or malformed stream. -/
def decInt : List Nat → Option (Int × List Nat)
  | 0 :: m :: rest => some (-(m : Int), rest)
  | 1 :: m :: rest => some ((m : Int), rest)
  | _ => none

/-- Reads exactly `n` character codes from the stream. -/
def decChars : Nat → List Nat → Option (List Char × List Nat)
  | 0, l => some ([], l)
  | _ + 1, [] => none
  | n + 1, c :: rest =>
    match decChars n rest with
    | some (cs, r) => some (Char.ofNat c :: cs, r)
    | none => none

/-- Decoder for `encString`: reads the length, then that many characters. -/
def decString : List Nat → Option (String × List Nat)
  | [] => none
  | n :: rest =>
    match decChars n rest with
    | some (cs, r) => some (String.mk cs, r)
    | none => none

/-- Decoder for `encArticle`: the six fields in order. -/
def decArticle (l : List Nat) : Option (Article × List Nat) := do
  let (id, l) ← decInt l
  let (t, l) ← decString l
  let (d, l) ← decString l
  let (c, l) ← decString l
  let (cr, l) ← decInt l
  let (up, l) ← decInt l
  some ({ ID := id, Title := t, Desc := d, Content := c,
          Created := cr, Updated := up }, l)

/-- Reads exactly `n` article records from the stream. -/
def decArticles : Nat → List Nat → Option (List Article × List Nat)
  | 0, l => some ([], l)
  | n + 1, l =>
    match decArticle l with
    | some (a, r) =>
      match decArticles n r with
      | some (as, r') => some (a :: as, r')
      | none => none
    | none => none

/-- Decoder for `encSnapshot`; `none` models the gob decoder's error on a
corrupt stream. -/
def decSnapshot (l : List Nat) : Option Snapshot := do
  let (n, l) ← match l with
               | [] => none
               | n :: rest => some (n, rest)
  let (arts, l) ← decArticles n l
  let (nid, _) ← decInt l
  some { Articles := arts, NextID := nid }

/-- The snapshot taken by `saveArticles`: the whole slice plus `nextID`. -/
def State.toSnapshot (st : State) : Snapshot :=
  { Articles := st.articles, NextID := st.nextID }

/-- Loading a snapshot replaces both package-level variables, as in
`loadArticles`. -/
def ofSnapshot (s : Snapshot) : State :=
  { articles := s.Articles, nextID := s.NextID }

/-- `saveArticles` (main.go): encode the current collection plus counter
and overwrite the data file with it. -/
def saveArticles (st : State) : List Nat :=
  encSnapshot st.toSnapshot

/-- `loadArticles` (main.go): a missing or unreadable file (`none`) is the
`os.Open` error; otherwise decode, failing on a corrupt stream. -/
def loadArticles : Option (List Nat) → Except String State
  | none => Except.error "open failed"
  | some bytes =>
    match decSnapshot bytes with
    | some s => Except.ok (ofSnapshot s)
    | none => Except.error "decode failed"

/-- One hour in nanoseconds, `time.Hour` in Go. -/
def hour : Int := 3600000000000

/-- `createSampleData` (main.go): the fixed seed collection, three articles
with ids 1, 2, 3 backdated by 24, 12 and 6 hours, and `nextID = 4`. -/
def createSampleData (now : Int) : State :=
  { articles :=
      [ { ID := 1
          Title := "Introduction to Go"
          Desc := "Learn the basics of Go programming language"
          Content := "Go is a statically typed, compiled programming language designed at Google. It's syntactically similar to C, but with memory safety, garbage collection, structural typing, and CSP-style concurrency."
          Created := now - 24 * hour
          Updated := now - 24 * hour }
      , { ID := 2
          Title := "Building REST APIs with Go"
          Desc := "A comprehensive guide to creating REST APIs in Go"
          Content := "REST APIs are a fundamental part of modern web development. Go provides excellent support for building fast and efficient web services with its built-in net/http package and third-party routers like Gorilla Mux."
          Created := now - 12 * hour
          Updated := now - 12 * hour }
      , { ID := 3
          Title := "Database Integration in Go"
          Desc := "How to connect Go applications with databases"
          Content := "Go supports various databases including SQLite, PostgreSQL, MySQL, MariaDB, and more. This article covers best practices for database integration in Go applications."
          Created := now - 6 * hour
          Updated := now - 6 * hour } ]
    nextID := 4 }

/-- `initDatabase` (main.go): try to load the data file; on any failure,
discard the error, install the seed data and synchronously save it.
Returns the resulting store state and the file contents afterwards. -/
def initDatabase (file : Option (List Nat)) (now : Int) :
    State × Option (List Nat) :=
  match loadArticles file with
  | Except.ok st => (st, file)
  | Except.error _ =>
    let st := createSampleData now
    (st, some (saveArticles st))

/-- Lock-discipline events of a mutation handler, in program order.
`unlockWrite` is the deferred `articlesMutex.Unlock()`, which runs when the
handler returns; `spawnSave` is the `go func() { saveArticles() }()`
statement. -/
inductive LockEvent where
  | lockWrite
  | mutate
  | spawnSave
  | respond
  | unlockWrite

deriving instance DecidableEq, Repr for LockEvent

/-- Statement order of the `createArticle` handler after validation:
`articlesMutex.Lock()` (with the unlock deferred to return), the in-memory
mutation, the save goroutine spawn, the response write, then the deferred
unlock at return. -/
def createHandlerTrace : List LockEvent :=
  [LockEvent.lockWrite, LockEvent.mutate, LockEvent.spawnSave,
   LockEvent.respond, LockEvent.unlockWrite]

/-- Statement order of the `updateArticle` handler on the found path: same
shape as the create handler. -/
def updateHandlerTrace : List LockEvent :=
  [LockEvent.lockWrite, LockEvent.mutate, LockEvent.spawnSave,
   LockEvent.respond, LockEvent.unlockWrite]

/-- Statement order of the `deleteArticle` handler on the found path: same
shape as the create handler. -/
def deleteHandlerTrace : List LockEvent :=
  [LockEvent.lockWrite, LockEvent.mutate, LockEvent.spawnSave,
   LockEvent.respond, LockEvent.unlockWrite]

/-- The write lock is released before the asynchronous persistence request
is dispatched (what the spec asserts of each mutation handler). -/
def releasedBeforeDispatch (t : List LockEvent) : Prop :=
  t.indexOf LockEvent.unlockWrite < t.indexOf LockEvent.spawnSave

/-- The asynchronous persistence request is dispatched while the write
lock is still held: the spawn sits between the lock acquisition and the
deferred unlock. -/
def dispatchedUnderLock (t : List LockEvent) : Prop :=
  t.indexOf LockEvent.lockWrite < t.indexOf LockEvent.spawnSave ∧
  t.indexOf LockEvent.spawnSave < t.indexOf LockEvent.unlockWrite

/-- The caller-controlled fields of a create request body zeroed out; the
three text fields are kept.  Used to state that `createArticle` never
reads the request's `ID`, `Created` or `Updated`. -/
def scrubbed (req : Article) : Article :=
  { req with ID := 0, Created := 0, Updated := 0 }

/-- A minimal valid create request body with the given title. -/
def wreq (t : String) : Article :=
  { ID := 0, Title := t, Desc := "d", Content := "c", Created := 0, Updated := 0 }

/-- The empty initial state: no articles, `nextID = 1` (the package-level
initializers in main.go). -/
def st0 : State := { articles := [], nextID := 1 }

/-- The concrete scenario of the spec: create A, create B, delete id 1,
create C. -/
def demoOps : List Op :=
  [Op.create (wreq "A") 0, Op.create (wreq "B") 0, Op.delete 1,
   Op.create (wreq "C") 0]

/-- A concrete valid create request body. -/
def reqA : Article :=
  { ID := 0, Title := "A", Desc := "d", Content := "c", Created := 0, Updated := 0 }

/-- A concrete stored article with id 1. -/
def art1 : Article :=
  { ID := 1, Title := "t", Desc := "d", Content := "c", Created := 3, Updated := 3 }

/-- A concrete one-article state. -/
def stw : State := { articles := [art1], nextID := 2 }

/-- A concrete update request that sets only the title. -/
def updReq : Article :=
  { ID := 0, Title := "T2", Desc := "", Content := "", Created := 0, Updated := 0 }

/-- A concrete create request body carrying caller-supplied id and
timestamps. -/
def reqB : Article :=
  { ID := 7, Title := "t", Desc := "d", Content := "c", Created := 5, Updated := 6 }

/-- The article the server actually stores for `reqB` at `st0`, `now = 0`:
id and timestamps are server-assigned. -/
def a0 : Article :=
  { ID := 1, Title := "t", Desc := "d", Content := "c", Created := 0, Updated := 0 }

/-- The state after creating `reqB` at `st0`. -/
def st0b : State := { articles := [a0], nextID := 2 }

/-! Codec round-trip lemmas. -/

theorem decInt_encInt (i : Int) (r : List Nat) :
    decInt (encInt i ++ r) = some (i, r) := by
  by_cases h : i < 0
  · have h1 : ((-i).toNat : Int) = -i := Int.toNat_of_nonneg (by omega)
    simp only [encInt, if_pos h, List.cons_append, decInt, h1, neg_neg,
      List.nil_append]
  · have h1 : (i.toNat : Int) = i := Int.toNat_of_nonneg (by omega)
    simp only [encInt, if_neg h, List.cons_append, decInt, h1, List.nil_append]

theorem decChars_enc (cs : List Char) (r : List Nat) :
    decChars cs.length (cs.map Char.toNat ++ r) = some (cs, r) := by
  induction cs with
  | nil => simp [decChars]
  | cons c cs ih =>
    simp [decChars, List.append_eq, ih, Char.ofNat_toNat]

theorem decString_encString (s : String) (r : List Nat) :
    decString (encString s ++ r) = some (s, r) := by
  cases s with
  | mk data =>
    simp only [encString, List.cons_append, decString, decChars_enc]

theorem decArticle_encArticle (a : Article) (r : List Nat) :
    decArticle (encArticle a ++ r) = some (a, r) := by
  simp [encArticle, decArticle, List.append_assoc, decInt_encInt,
    decString_encString]

theorem decArticles_enc (l : List Article) (r : List Nat) :
    decArticles l.length (encArticles l ++ r) = some (l, r) := by
  induction l with
  | nil => simp [encArticles, decArticles]
  | cons a l ih =>
    simp [encArticles, decArticles, List.append_assoc, decArticle_encArticle, ih]

theorem decSnapshot_encSnapshot (s : Snapshot) :
    decSnapshot (encSnapshot s) = some s := by
  obtain ⟨arts, nid⟩ := s
  have h := decInt_encInt nid []
  rw [List.append_nil] at h
  simp [encSnapshot, decSnapshot, decArticles_enc, h]

/-- Claim C2: decoding the bytes produced by encoding a snapshot yields
that same snapshot, for snapshots with any number of articles and
arbitrary text fields; equivalently, a state written by `saveArticles` is
recovered intact by `loadArticles`. -/
theorem decode_encode_roundtrip :
    (∀ s : Snapshot, decSnapshot (encSnapshot s) = some s) ∧
    (∀ st : State, loadArticles (some (saveArticles st)) = Except.ok st) := by
  refine ⟨decSnapshot_encSnapshot, fun st => ?_⟩
  simp [loadArticles, saveArticles, decSnapshot_encSnapshot, ofSnapshot,
    State.toSnapshot]

/-! Create, update and delete. -/

/-- Claim C3: a successful `Create(title, desc, content)` assigns
`id = nextID`, increments `nextID` by one, stamps `Created = Updated = now`,
appends the article at the end of the slice, and the returned article is
the stored one (the last element of the new slice). -/
theorem createArticle_success (req : Article) (now : Int) (st : State)
    (h1 : req.Title ≠ "") (h2 : req.Desc ≠ "") (h3 : req.Content ≠ "") :
    ∃ a : Article,
      createArticle req now st =
        Except.ok (a, { articles := st.articles ++ [a], nextID := st.nextID + 1 }) ∧
      a.ID = st.nextID ∧ a.Created = now ∧ a.Updated = now ∧
      a.Title = req.Title ∧ a.Desc = req.Desc ∧ a.Content = req.Content ∧
      (createStep req now st).articles = st.articles ++ [a] ∧
      (createStep req now st).articles.getLast? = some a ∧
      (createStep req now st).nextID = st.nextID + 1 := by
  have hcond : ¬(req.Title = "" ∨ req.Desc = "" ∨ req.Content = "") := by
    simp [h1, h2, h3]
  refine ⟨{ req with ID := st.nextID, Created := now, Updated := now }, ?_⟩
  simp [createArticle, createStep, hcond]

/-- Witness for C3: a concrete successful create at the empty state. -/
theorem createArticle_success_witness :
    (reqA.Title ≠ "" ∧ reqA.Desc ≠ "" ∧ reqA.Content ≠ "") ∧
    (∃ a : Article,
      createArticle reqA 0 st0 =
        Except.ok (a, { articles := st0.articles ++ [a], nextID := st0.nextID + 1 }) ∧
      a.ID = st0.nextID ∧ a.Created = 0 ∧ a.Updated = 0 ∧
      a.Title = reqA.Title ∧ a.Desc = reqA.Desc ∧ a.Content = reqA.Content ∧
      (createStep reqA 0 st0).articles = st0.articles ++ [a] ∧
      (createStep reqA 0 st0).articles.getLast? = some a ∧
      (createStep reqA 0 st0).nextID = st0.nextID + 1) :=
  ⟨⟨by decide, by decide, by decide⟩,
    createArticle_success reqA 0 st0 (by decide) (by decide) (by decide)⟩

/-- Claim C6: `Create` fails with a validation error exactly when at least
one of the three text fields is the empty string, and on that error the
state (collection and counter) is untouched. -/
theorem createArticle_validation (req : Article) (now : Int) (st : State) :
    ((∃ e, createArticle req now st = Except.error e) ↔
      (req.Title = "" ∨ req.Desc = "" ∨ req.Content = "")) ∧
    ((createArticle req now st).isOk = true ∨ createStep req now st = st) := by
  by_cases hcond : req.Title = "" ∨ req.Desc = "" ∨ req.Content = ""
  · refine ⟨?_, Or.inr ?_⟩
    · simp [createArticle, hcond]
    · simp [createStep, createArticle, hcond]
  · refine ⟨?_, Or.inl ?_⟩
    · simp [createArticle, hcond]
    · simp [createArticle, hcond, Except.isOk, Except.toBool]

/-- Claim C10: the handler overwrites any caller-supplied `ID`, `Created`
or `Updated` in the request body, so the outcome of `Create` is identical
for any two request bodies agreeing on the three text fields, and on
success the stored id and timestamps are the server-assigned ones. -/
theorem create_ignores_client_fields (req : Article) (now : Int) (st : State) :
    createArticle req now st = createArticle (scrubbed req) now st ∧
    (∀ a st', createArticle req now st = Except.ok (a, st') →
      a.ID = st.nextID ∧ a.Created = now ∧ a.Updated = now) := by
  constructor
  · simp [createArticle, scrubbed]
  · intro a st' h
    simp only [createArticle] at h
    split at h
    · exact absurd h (by simp)
    · simp only [Except.ok.injEq, Prod.mk.injEq] at h
      obtain ⟨ha, _⟩ := h
      subst ha
      simp

/-- Witness for C10: a request carrying id 7 and nonzero timestamps is
stored with the server-assigned id 1 and timestamps 0. -/
theorem create_ignores_client_fields_witness :
    createArticle reqB 0 st0 = Except.ok (a0, st0b) ∧
    (a0.ID = st0.nextID ∧ a0.Created = 0 ∧ a0.Updated = 0) :=
  ⟨by decide, (create_ignores_client_fields reqB 0 st0).2 a0 st0b (by decide)⟩

theorem applyUpdate_ID (upd : Article) (now : Int) (a : Article) :
    (applyUpdate upd now a).ID = a.ID := rfl

theorem updateList_of_find (id : Int) (upd : Article) (now : Int) :
    ∀ {l : List Article} {a : Article}, findArticle id l = some a →
    ∃ l', updateList id upd now l = some (applyUpdate upd now a, l') ∧
      findArticle id l' = some (applyUpdate upd now a) := by
  intro l
  induction l with
  | nil => intro a h; simp [findArticle] at h
  | cons a₀ rest ih =>
    intro a h
    by_cases hid : a₀.ID = id
    · simp only [findArticle, if_pos hid, Option.some.injEq] at h
      subst h
      refine ⟨applyUpdate upd now a₀ :: rest, ?_, ?_⟩
      · simp [updateList, hid]
      · simp [findArticle, applyUpdate_ID, hid]
    · simp only [findArticle, if_neg hid] at h
      obtain ⟨l', h1, h2⟩ := ih h
      exact ⟨a₀ :: l', by simp [updateList, hid, h1], by simp [findArticle, hid, h2]⟩

/-- Claim C4: updating an existing article overwrites each text field only
when the request value is non-empty (empty request fields leave the stored
field unchanged), always refreshes `Updated` to now, and never changes
`ID` or `Created`. -/
theorem updateArticle_partial (id : Int) (upd : Article) (now : Int) (st : State)
    (a : Article) (h : getArticle id st = some a) :
    ∃ a' st', updateArticle id upd now st = some (a', st') ∧
      a'.Title = (if upd.Title = "" then a.Title else upd.Title) ∧
      a'.Desc = (if upd.Desc = "" then a.Desc else upd.Desc) ∧
      a'.Content = (if upd.Content = "" then a.Content else upd.Content) ∧
      a'.Updated = now ∧ a'.ID = a.ID ∧ a'.Created = a.Created ∧
      getArticle id st' = some a' ∧ st'.nextID = st.nextID := by
  obtain ⟨l', h1, h2⟩ := updateList_of_find id upd now h
  refine ⟨applyUpdate upd now a, { st with articles := l' },
    by simp [updateArticle, h1], ?_, ?_, ?_, rfl, rfl, rfl, h2, rfl⟩
  · by_cases ht : upd.Title = "" <;> simp [applyUpdate, ht]
  · by_cases ht : upd.Desc = "" <;> simp [applyUpdate, ht]
  · by_cases ht : upd.Content = "" <;> simp [applyUpdate, ht]

/-- Witness for C4: a concrete update setting only the title leaves the
other fields unchanged and refreshes `Updated`. -/
theorem updateArticle_partial_witness :
    getArticle 1 stw = some art1 ∧
    (∃ a' st', updateArticle 1 updReq 99 stw = some (a', st') ∧
      a'.Title = (if updReq.Title = "" then art1.Title else updReq.Title) ∧
      a'.Desc = (if updReq.Desc = "" then art1.Desc else updReq.Desc) ∧
      a'.Content = (if updReq.Content = "" then art1.Content else updReq.Content) ∧
      a'.Updated = 99 ∧ a'.ID = art1.ID ∧ a'.Created = art1.Created ∧
      getArticle 1 st' = some a' ∧ st'.nextID = stw.nextID) :=
  ⟨by decide, updateArticle_partial 1 updReq 99 stw art1 (by decide)⟩

theorem deleteList_true_iff (id : Int) :
    ∀ l : List Article, (deleteList id l).1 = true ↔ ∃ a ∈ l, a.ID = id := by
  intro l
  induction l with
  | nil => simp [deleteList]
  | cons a rest ih =>
    by_cases hid : a.ID = id <;> simp [deleteList, hid, ih]

theorem deleteList_sublist (id : Int) :
    ∀ l : List Article, List.Sublist (deleteList id l).2 l := by
  intro l
  induction l with
  | nil => simp [deleteList]
  | cons a rest ih =>
    by_cases hid : a.ID = id
    · simp [deleteList, hid]
    · simpa [deleteList, hid] using List.Sublist.cons₂ a ih

theorem deleteList_false (id : Int) :
    ∀ l : List Article, (deleteList id l).1 = false → (deleteList id l).2 = l := by
  intro l
  induction l with
  | nil => simp [deleteList]
  | cons a rest ih =>
    by_cases hid : a.ID = id <;> intro h
    · simp [deleteList, hid] at h
    · simp only [deleteList, if_neg hid] at h ⊢
      simp [ih h]

theorem findArticle_eq_none (id : Int) :
    ∀ l : List Article, (∀ a ∈ l, a.ID ≠ id) → findArticle id l = none := by
  intro l
  induction l with
  | nil => simp [findArticle]
  | cons a rest ih =>
    intro h
    have ha : a.ID ≠ id := h a (by simp)
    simp only [findArticle, if_neg ha]
    exact ih fun b hb => h b (by simp [hb])

theorem deleteList_find_none (id : Int) :
    ∀ l : List Article, (l.map Article.ID).Nodup → (deleteList id l).1 = true →
      findArticle id (deleteList id l).2 = none := by
  intro l
  induction l with
  | nil => simp [deleteList]
  | cons a rest ih =>
    intro hnd htrue
    simp only [List.map_cons, List.nodup_cons] at hnd
    obtain ⟨hnotin, hnd'⟩ := hnd
    by_cases hid : a.ID = id
    · simp only [deleteList, if_pos hid]
      refine findArticle_eq_none id rest fun b hb hbid => ?_
      have hmem : a.ID ∈ List.map Article.ID rest := by
        rw [hid, ← hbid]
        exact List.mem_map_of_mem _ hb
      exact hnotin hmem
    · simp only [deleteList, if_neg hid] at htrue ⊢
      simp only [findArticle, if_neg hid]
      exact ih hnd' htrue

/-- Claim C5: `Delete(id)` returns true exactly when an article with that
id exists; after a true delete, `Get(id)` is NotFound; a false delete
leaves the state unchanged; in both cases the surviving articles keep
their relative order (the new slice is a sublist of the old) and the
counter is untouched. -/
theorem deleteArticle_spec (id : Int) (st : State)
    (h : (st.articles.map Article.ID).Nodup) :
    ((deleteArticle id st).1 = true ↔ ∃ a ∈ st.articles, a.ID = id) ∧
    ((deleteArticle id st).1 = true →
      getArticle id (deleteArticle id st).2 = none) ∧
    ((deleteArticle id st).1 = false → (deleteArticle id st).2 = st) ∧
    List.Sublist (deleteArticle id st).2.articles st.articles ∧
    (deleteArticle id st).2.nextID = st.nextID := by
  refine ⟨deleteList_true_iff id st.articles, ?_, ?_,
    deleteList_sublist id st.articles, rfl⟩
  · intro htrue
    exact deleteList_find_none id st.articles h htrue
  · intro hfalse
    have hl := deleteList_false id st.articles hfalse
    cases st with
    | mk arts nid =>
      simp only [deleteArticle] at hl ⊢
      simp [hl]

/-- Witness for C5: deleting id 1 from a concrete one-article state
succeeds and afterwards `Get 1` is NotFound. -/
theorem deleteArticle_spec_witness :
    (stw.articles.map Article.ID).Nodup ∧
    (((deleteArticle 1 stw).1 = true ↔ ∃ a ∈ stw.articles, a.ID = 1) ∧
     ((deleteArticle 1 stw).1 = true →
       getArticle 1 (deleteArticle 1 stw).2 = none) ∧
     ((deleteArticle 1 stw).1 = false → (deleteArticle 1 stw).2 = stw) ∧
     List.Sublist (deleteArticle 1 stw).2.articles stw.articles ∧
     (deleteArticle 1 stw).2.nextID = stw.nextID) :=
  ⟨by decide, deleteArticle_spec 1 stw (by decide)⟩

/-! Run-level invariants. -/

theorem createArticle_ok_shape {req : Article} {now : Int} {st : State}
    {a : Article} {st' : State}
    (h : createArticle req now st = Except.ok (a, st')) :
    a.ID = st.nextID ∧ st'.nextID = st.nextID + 1 ∧
      st'.articles = st.articles ++ [a] := by
  simp only [createArticle] at h
  split at h
  · exact absurd h (by simp)
  · simp only [Except.ok.injEq, Prod.mk.injEq] at h
    obtain ⟨ha, hst⟩ := h
    subst ha
    subst hst
    simp

theorem runOps_aux : ∀ (ops : List Op) (st : State), counterInv st →
    List.Pairwise (· < ·) (createdIds ops st) ∧
    (∀ i ∈ createdIds ops st, st.nextID ≤ i ∧ i < (runOps ops st).nextID) ∧
    st.nextID ≤ (runOps ops st).nextID ∧
    counterInv (runOps ops st) := by
  intro ops
  induction ops with
  | nil =>
    intro st h
    exact ⟨List.Pairwise.nil, by simp [createdIds], le_refl _, h⟩
  | cons op rest ih =>
    intro st h
    cases op with
    | delete id =>
      have hinv : counterInv (deleteArticle id st).2 := fun a ha =>
        h a ((deleteList_sublist id st.articles).subset ha)
      obtain ⟨hpw, hbound, hle, hinvf⟩ := ih (deleteArticle id st).2 hinv
      exact ⟨hpw, hbound, hle, hinvf⟩
    | create req now =>
      cases hc : createArticle req now st with
      | error e =>
        have hstep : step (Op.create req now) st = st := by
          simp [step, createStep, hc]
        have hlist : createdIds (Op.create req now :: rest) st =
            createdIds rest st := by simp [createdIds, hc]
        have hrun : runOps (Op.create req now :: rest) st = runOps rest st := by
          rw [runOps, hstep]
        rw [hlist, hrun]
        exact ih st h
      | ok p =>
        obtain ⟨a, st'⟩ := p
        obtain ⟨haid, hnid, harts⟩ := createArticle_ok_shape hc
        have hinv' : counterInv st' := by
          intro b hb
          rw [harts] at hb
          rw [hnid]
          rcases List.mem_append.mp hb with hb | hb
          · have := h b hb
            omega
          · simp only [List.mem_singleton] at hb
            subst hb
            omega
        obtain ⟨hpw, hbound, hle, hinvf⟩ := ih st' hinv'
        have hstep : step (Op.create req now) st = st' := by
          simp [step, createStep, hc]
        have hlist : createdIds (Op.create req now :: rest) st =
            a.ID :: createdIds rest st' := by simp [createdIds, hc]
        have hrun : runOps (Op.create req now :: rest) st = runOps rest st' := by
          rw [runOps, hstep]
        rw [hlist, hrun]
        refine ⟨?_, ?_, by omega, hinvf⟩
        · refine List.pairwise_cons.mpr ⟨fun i hi => ?_, hpw⟩
          have := (hbound i hi).1
          omega
        · intro i hi
          rcases List.mem_cons.mp hi with hi | hi
          · subst hi
            have := hle
            constructor <;> omega
          · have := hbound i hi
            constructor <;> omega

/-- Claim C1: over any sequence of create and delete operations from a
state satisfying the counter invariant, the ids returned by successful
creates are strictly increasing in call order (hence pairwise distinct),
the final counter strictly dominates every id ever assigned (both the
initial ones and the created ones, deleted or not), the invariant is
preserved, and no created id coincides with a previously assigned id. -/
theorem create_ids_monotone (ops : List Op) (st : State) (h : counterInv st) :
    List.Pairwise (· < ·) (createdIds ops st) ∧
    (createdIds ops st).Nodup ∧
    (∀ i ∈ createdIds ops st, i < (runOps ops st).nextID) ∧
    (∀ a ∈ st.articles, a.ID < (runOps ops st).nextID) ∧
    counterInv (runOps ops st) ∧
    (∀ i ∈ createdIds ops st, ∀ a ∈ st.articles, a.ID ≠ i) := by
  obtain ⟨hpw, hbound, hle, hinvf⟩ := runOps_aux ops st h
  refine ⟨hpw, List.Pairwise.imp (fun hlt => ne_of_lt hlt) hpw,
    fun i hi => (hbound i hi).2,
    fun a ha => lt_of_lt_of_le (h a ha) hle, hinvf, ?_⟩
  intro i hi a ha
  have h1 := h a ha
  have h2 := (hbound i hi).1
  omega

/-- Witness for C1: the concrete spec scenario create A, create B,
delete 1, create C, starting from the empty state. -/
theorem create_ids_monotone_witness :
    counterInv st0 ∧
    (List.Pairwise (· < ·) (createdIds demoOps st0) ∧
     (createdIds demoOps st0).Nodup ∧
     (∀ i ∈ createdIds demoOps st0, i < (runOps demoOps st0).nextID) ∧
     (∀ a ∈ st0.articles, a.ID < (runOps demoOps st0).nextID) ∧
     counterInv (runOps demoOps st0) ∧
     (∀ i ∈ createdIds demoOps st0, ∀ a ∈ st0.articles, a.ID ≠ i)) :=
  ⟨by unfold counterInv; decide,
    create_ids_monotone demoOps st0 (by unfold counterInv; decide)⟩

/-- Claim C7: after any sequence of creates and deletes, the listing is a
sublist of the initial articles followed by the created articles in call
order: surviving articles keep their relative insertion order, earlier
survivors before later ones. -/
theorem runOps_order_preservation (ops : List Op) (st : State) :
    List.Sublist (getAllArticles (runOps ops st))
      (getAllArticles st ++ createdArticles ops st) := by
  simp only [getAllArticles]
  induction ops generalizing st with
  | nil => simp [runOps, createdArticles]
  | cons op rest ih =>
    cases op with
    | delete id =>
      have hsub := deleteList_sublist id st.articles
      have h1 := ih (deleteArticle id st).2
      exact h1.trans (List.Sublist.append_right hsub _)
    | create req now =>
      cases hc : createArticle req now st with
      | error e =>
        have hstep : step (Op.create req now) st = st := by
          simp [step, createStep, hc]
        have hlist : createdArticles (Op.create req now :: rest) st =
            createdArticles rest st := by simp [createdArticles, hc]
        rw [runOps, hstep, hlist]
        exact ih st
      | ok p =>
        obtain ⟨a, st'⟩ := p
        obtain ⟨_, _, harts⟩ := createArticle_ok_shape hc
        have hstep : step (Op.create req now) st = st' := by
          simp [step, createStep, hc]
        have hlist : createdArticles (Op.create req now :: rest) st =
            a :: createdArticles rest st' := by simp [createdArticles, hc]
        rw [runOps, hstep, hlist]
        have h1 := ih st'
        rw [harts] at h1
        rw [show st.articles ++ a :: createdArticles rest st' =
          st.articles ++ [a] ++ createdArticles rest st' by simp]
        exact h1

/-! Startup load-or-seed and the lock discipline. -/

/-- Claim C8: when loading the persisted file fails for any reason, the
startup routine discards the error, installs exactly the fixed seed
collection with counter 4, synchronously writes it to the file, and a
subsequent load of the just-written file reproduces that same seed
state. -/
theorem loadOrSeed_fallback (file : Option (List Nat)) (now : Int)
    (h : ∃ e, loadArticles file = Except.error e) :
    initDatabase file now =
      (createSampleData now, some (saveArticles (createSampleData now))) ∧
    loadArticles (some (saveArticles (createSampleData now))) =
      Except.ok (createSampleData now) := by
  obtain ⟨e, he⟩ := h
  constructor
  · simp [initDatabase, he]
  · simp [loadArticles, saveArticles, decSnapshot_encSnapshot, ofSnapshot,
      State.toSnapshot]

/-- Witness for C8: a missing file (`none`) fails to load, and the reseed
plus save plus reload cycle reproduces the seed state. -/
theorem loadOrSeed_fallback_witness :
    (∃ e, loadArticles none = Except.error e) ∧
    (initDatabase none 0 =
      (createSampleData 0, some (saveArticles (createSampleData 0))) ∧
     loadArticles (some (saveArticles (createSampleData 0))) =
      Except.ok (createSampleData 0)) :=
  ⟨⟨"open failed", rfl⟩, loadOrSeed_fallback none 0 ⟨"open failed", rfl⟩⟩

/-- Claim C9 counterexample: in every mutation handler the write lock is
NOT released before the persistence goroutine is spawned — the unlock is
deferred to handler return, which happens after the `go` statement. -/
theorem lock_released_before_dispatch_false :
    ¬ (releasedBeforeDispatch createHandlerTrace ∧
       releasedBeforeDispatch updateHandlerTrace ∧
       releasedBeforeDispatch deleteHandlerTrace) := by
  unfold releasedBeforeDispatch
  decide

/-- Claim C9 (amended): every mutation handler spawns the asynchronous
persistence goroutine while still holding the write lock, between the
lock acquisition and the deferred unlock at return. -/
theorem dispatch_under_lock :
    dispatchedUnderLock createHandlerTrace ∧
    dispatchedUnderLock updateHandlerTrace ∧
    dispatchedUnderLock deleteHandlerTrace := by
  unfold dispatchedUnderLock
  decide

end GoSpring
